import Mathlib

/-!
# Verification of `convert.py` (PDF → PPTX converter)

Shallow embedding of `convert_pdf_to_pptx` from `src/convert.py`.

Modelling decisions (all traceable to the Python source):

* PDF coordinates and font sizes are rationals (`ℚ`); PyMuPDF exposes them
  as floats but every computation the program performs on them is exact
  arithmetic (`+`, `-`, `*`, `/`), which we embed over `ℚ`.
* Python's `int(...)` truncates toward zero: `pyInt`.
* `pptx.util.Pt p` converts points to EMU via `int(p * 12700)`: `Pt`.
* Python's `str.strip()` removes leading and trailing whitespace: `pyStrip`
  (modelled on the character list, ASCII whitespace).
* Exceptions are modelled with `Except`/outcome tags: a caught exception
  becomes a branch, an uncaught one propagates as `Except.error`.
* Side effects are explicit state: the set of temporary files currently on
  disk is a `List String`, printed output is a `List String` log.
-/

namespace Convert

/-- Python `int(q)`: truncation toward zero. -/
def pyInt (q : ℚ) : ℤ := if 0 ≤ q then ⌊q⌋ else ⌈q⌉

/-- `pptx.util.Pt`: points → EMU, `int(points * 12700)` (1 pt = 12700 EMU). -/
def Pt (points : ℚ) : ℤ := pyInt (points * 12700)

/-- Python `str.strip()` on ASCII whitespace: drop whitespace from both ends. -/
def pyStrip (s : String) : String :=
  ⟨((s.data.dropWhile Char.isWhitespace).reverse.dropWhile Char.isWhitespace).reverse⟩

/-- One span of `page.get_text("dict")`: a text run with a font size. -/
structure Span where
  text : String
  size : ℚ
deriving DecidableEq, Repr

/-- One line of a text block: an ordered list of spans. -/
structure TLine where
  spans : List Span
deriving DecidableEq, Repr

/-- A block's bounding box `(x0, y0, x1, y1)` in page points. -/
structure BBox where
  x0 : ℚ
  y0 : ℚ
  x1 : ℚ
  y1 : ℚ
deriving DecidableEq, Repr

/-- Outcome of the side-effecting part of an image block
(`open`+`write`, then `add_picture`): models which statement, if any,
raises inside the `try` of lines 94–101 of `convert.py`.
`open(name, "wb")` creates (or truncates) the file the moment it succeeds,
so every failure after a successful `open` leaves the file on disk, because
the `except` branch never runs `os.remove`. -/
inductive ImgOutcome where
  /-- `open` and write succeed, `add_picture` succeeds, `os.remove` runs. -/
  | success
  /-- `open(...)` itself raises: no temp file is created. -/
  | openFail
  /-- `open` created the file but `f.write` raises: `os.remove` is never
  reached, so the (empty or partial) temp file persists. -/
  | writeFail
  /-- the file is written but `add_picture` raises: `os.remove` is skipped
  and the temp file persists. -/
  | insertFail
deriving DecidableEq, Repr

/-- A content block of `page.get_text("dict")["blocks"]`:
`type == 0` text, `type == 1` image, anything else untouched by the code. -/
inductive Block where
  | text (bbox : BBox) (lines : List TLine)
  | image (bbox : BBox) (ext : String) (outcome : ImgOutcome)
  | other (btype : Nat) (bbox : BBox)
deriving DecidableEq, Repr

instance {ε α : Type} [DecidableEq ε] [DecidableEq α] : DecidableEq (Except ε α) := fun x y =>
  match x, y with
  | .ok a, .ok b =>
    if h : a = b then isTrue (by rw [h]) else isFalse (by intro he; cases he; exact h rfl)
  | .error e, .error f =>
    if h : e = f then isTrue (by rw [h]) else isFalse (by intro he; cases he; exact h rfl)
  | .ok _, .error _ => isFalse (by intro he; cases he)
  | .error _, .ok _ => isFalse (by intro he; cases he)

/-- A source page: its rectangle (width, height in points), its content
blocks (used in editable mode), and the result of `page.get_pixmap`
(used in raster mode): pixel dimensions, or the uncaught exception. -/
structure Page where
  rectW : ℚ
  rectH : ℚ
  blocks : List Block
  render : Except String (Nat × Nat)
deriving DecidableEq, Repr

/-- An element placed on a slide. A text box records the text put into its
text frame and the font size applied to its first paragraph (the only
paragraph the code ever formats); a picture records the arguments passed to
`add_picture` (file name, left, top, and the width and/or height that were
explicitly given). -/
inductive Element where
  | textBox (left top width height : ℤ) (text : String) (firstParaSize : Option ℤ)
  | picture (file : String) (left top : ℤ) (width height : Option ℤ)
deriving DecidableEq, Repr

/-- The text of a text-box element. -/
def Element.textOf : Element → Option String
  | .textBox _ _ _ _ t _ => some t
  | .picture _ _ _ _ _ => none

/-- The font size applied to the first paragraph of a text-box element. -/
def Element.paraSize : Element → Option ℤ
  | .textBox _ _ _ _ _ fs => fs
  | .picture _ _ _ _ _ => none

/-- Whether an element is a picture. -/
def Element.isPicture : Element → Bool
  | .textBox _ _ _ _ _ _ => false
  | .picture _ _ _ _ _ => true

/-- Lines 68–72 of `convert.py`: accumulate one line into `text_content`
(each span's text followed by `" "`, then `"\n"` after the line). -/
def lineAccum (acc : String) (l : TLine) : String :=
  (l.spans.foldl (fun a s => a ++ s.text ++ " ") acc) ++ "\n"

/-- Lines 68–72 of `convert.py`: the accumulated `text_content` of a block. -/
def textContent (lines : List TLine) : String :=
  lines.foldl lineAccum ""

/-- Lines 82–87 of `convert.py`: `block["lines"][0]["spans"][0]["size"]`
inside `try: ... except: pass` — `none` models the swallowed `IndexError`. -/
def trySpanSize (lines : List TLine) : Option ℚ :=
  match lines with
  | [] => none
  | l :: _ =>
    match l.spans with
    | [] => none
    | s :: _ => some s.size

/-- Lines 66–87 of `convert.py`: build the text-box element for a text block:
`add_textbox(Pt(b_x0), Pt(b_y0), Pt(b_width), Pt(b_height))`,
`tf.text = text_content.strip()`, then best-effort first-paragraph font size. -/
def processTextBlock (bbox : BBox) (lines : List TLine) : Element :=
  Element.textBox (Pt bbox.x0) (Pt bbox.y0)
    (Pt (bbox.x1 - bbox.x0)) (Pt (bbox.y1 - bbox.y0))
    (pyStrip (textContent lines))
    ((trySpanSize lines).map Pt)

/-- Line 93 of `convert.py`: `f"temp_img_{i}_{int(b_x0)}_{int(b_y0)}.{ext}"`. -/
def tempImgName (i : Nat) (x0 y0 : ℚ) (ext : String) : String :=
  "temp_img_" ++ toString i ++ "_" ++ toString (pyInt x0) ++ "_"
    ++ toString (pyInt y0) ++ "." ++ ext

/-- Line 111 of `convert.py`: `f"temp_page_{i}.png"`. -/
def tempPageName (i : Nat) : String :=
  "temp_page_" ++ toString i ++ ".png"

/-- Accumulator while processing the blocks of one page in editable mode:
the elements added to the current slide so far, the temporary files
currently existing on disk, and the printed output so far. -/
structure PageAcc where
  elems : List Element
  temps : List String
  log : List String
deriving DecidableEq, Repr

/-- Lines 60–101 of `convert.py`: process one block in editable mode.
A text block adds a text box (lines 66–87).  An image block (lines 89–101)
writes the bytes to `temp_img_...`, inserts the picture sized to the block's
bbox, and removes the file; the whole of that is inside
`try: ... except: print warning`, so any failure only logs the warning; but
`open(name, "wb")` creates the file before anything can fail afterwards, so
on `writeFail` and `insertFail` the created temp file stays behind because
`os.remove` (line 99) is never reached.  Any other block type is skipped. -/
def stepBlock (i : Nat) (acc : PageAcc) (b : Block) : PageAcc :=
  match b with
  | .text bbox lines =>
    { acc with elems := acc.elems ++ [processTextBlock bbox lines] }
  | .image bbox ext outcome =>
    let name := tempImgName i bbox.x0 bbox.y0 ext
    match outcome with
    | .success =>
      -- created, written, inserted, then removed: no net change to the disk
      { acc with elems := acc.elems ++
          [Element.picture name (Pt bbox.x0) (Pt bbox.y0)
            (some (Pt (bbox.x1 - bbox.x0))) (some (Pt (bbox.y1 - bbox.y0)))] }
    | .openFail =>
      { acc with log := acc.log ++ ["Warning: Failed to add image element"] }
    | .writeFail =>
      { acc with temps := acc.temps ++ [name],
                 log := acc.log ++ ["Warning: Failed to add image element"] }
    | .insertFail =>
      { acc with temps := acc.temps ++ [name],
                 log := acc.log ++ ["Warning: Failed to add image element"] }
  | .other _ _ => acc

/-- State of the run across pages: the presentation's slide dimensions
(EMU), its slides (each a list of elements, in insertion order), the
temporary files currently on disk, and the printed output. -/
structure St where
  slideW : ℤ
  slideH : ℤ
  slides : List (List Element)
  temps : List String
  log : List String
deriving DecidableEq, Repr

/-- `Presentation()` defaults: 10 × 7.5 inches in EMU. -/
def initSt : St :=
  { slideW := 9144000, slideH := 6858000, slides := [], temps := [], log := [] }

/-- Lines 41–101 of `convert.py`, editable branch for page `i`:
resize the whole presentation to the page rectangle
(`prs.slide_width = int(pdf_width * 12700)`, same for height), then fold
over the page's blocks building the new slide. -/
def processPageEditable (i : Nat) (p : Page) (st : St) : St :=
  let a := p.blocks.foldl (stepBlock i) ⟨[], st.temps, st.log⟩
  { slideW := pyInt (p.rectW * 12700)
    slideH := pyInt (p.rectH * 12700)
    slides := st.slides ++ [a.elems]
    temps := a.temps
    log := a.log }

/-- Lines 114–133 of `convert.py`: fit the rendered page image onto the
slide.  `fitWidth` records which branch was taken (and hence whether
`add_picture` received `width=` or `height=`). -/
structure Placement where
  left : ℤ
  top : ℤ
  newW : ℤ
  newH : ℤ
  fitWidth : Bool
deriving DecidableEq, Repr

/-- Lines 115–133 of `convert.py`: the aspect-fit computation.
`img_ratio = img_width_px / img_height_px`, `slide_ratio = sw / sh`;
if `img_ratio > slide_ratio` scale to the slide width, else to the
slide height, centering along the other axis. -/
def rasterPlacement (imgW imgH : Nat) (sw sh : ℤ) : Placement :=
  let imgAR : ℚ := (imgW : ℚ) / (imgH : ℚ)
  let slideAR : ℚ := (sw : ℚ) / (sh : ℚ)
  if slideAR < imgAR then
    let newH : ℤ := pyInt ((sw : ℚ) / imgAR)
    { left := 0, top := pyInt (((sh : ℤ) - newH : ℤ) / (2 : ℚ)),
      newW := sw, newH := newH, fitWidth := true }
  else
    let newW : ℤ := pyInt ((sh : ℚ) * imgAR)
    { left := pyInt (((sw : ℤ) - newW : ℤ) / (2 : ℚ)), top := 0,
      newW := newW, newH := sh, fitWidth := false }

/-- The picture element embedded for page `i` in raster mode: in the
fit-width branch `add_picture(path, left, top, width=new_width)`, in the
fit-height branch `add_picture(path, left, top, height=new_height)`. -/
def rasterPic (i : Nat) (wh : Nat × Nat) (sw sh : ℤ) : Element :=
  let pl := rasterPlacement wh.1 wh.2 sw sh
  if pl.fitWidth then
    Element.picture (tempPageName i) pl.left pl.top (some pl.newW) none
  else
    Element.picture (tempPageName i) pl.left pl.top none (some pl.newH)

/-- Lines 103–136 of `convert.py`, raster branch for page `i`:
`page.get_pixmap` may raise — there is no `try` around the page loop, so
the exception propagates (`Except.error`).  On success the pixmap is saved
to `temp_page_{i}.png`, embedded with the aspect-fit placement, and the
temp file removed. -/
def processPageRaster (i : Nat) (p : Page) (st : St) : Except String St :=
  match p.render with
  | .error e => .error e
  | .ok wh =>
    .ok { st with
            slides := st.slides ++ [[rasterPic i wh st.slideW st.slideH]] }

/-- Lines 31–136 of `convert.py`: the page loop, carrying the page index.
Each iteration prints a progress line; in editable mode nothing in the body
can raise, in raster mode a render failure aborts the whole loop. -/
def runPages (editable : Bool) : List Page → Nat → St → Except String St
  | [], _, st => .ok st
  | p :: rest, i, st =>
    let st₁ := { st with log := st.log ++ ["Processing page " ++ toString (i + 1)] }
    if editable then
      runPages editable rest (i + 1) (processPageEditable i p st₁)
    else
      match processPageRaster i p st₁ with
      | .error e => .error e
      | .ok st₂ => runPages editable rest (i + 1) st₂

/-- The observable result of a run that returned normally. -/
structure RunOutput where
  log : List String
  slides : List (List Element)
  slideW : ℤ
  slideH : ℤ
  temps : List String
  saved : Bool
deriving DecidableEq, Repr, Inhabited

/-- `convert_pdf_to_pptx` of `convert.py` (lines 8–142).
Inputs model the environment: whether `pdf_path` exists, the result of
`fitz.open` (the page list, or the exception it raised), and whether
`prs.save` succeeds.  `Except.error` is an exception escaping the function;
`Except.ok` is a normal return, with everything printed in `log`. -/
def convert_pdf_to_pptx (pdfExists : Bool) (openRes : Except String (List Page))
    (saveOk : Bool) (editable : Bool) : Except String RunOutput :=
  if pdfExists then
    match openRes with
    | .error e =>
      .ok { log := ["Error opening PDF: " ++ e], slides := [],
            slideW := initSt.slideW, slideH := initSt.slideH,
            temps := [], saved := false }
    | .ok pages =>
      match runPages editable pages 0 initSt with
      | .error e => .error e
      | .ok st =>
        if saveOk then
          .ok { log := st.log ++ ["Successfully saved PPTX"], slides := st.slides,
                slideW := st.slideW, slideH := st.slideH,
                temps := st.temps, saved := true }
        else
          .ok { log := st.log ++ ["Error saving PPTX file"], slides := st.slides,
                slideW := st.slideW, slideH := st.slideH,
                temps := st.temps, saved := false }
  else
    .ok { log := ["Error: PDF file not found"], slides := [],
          slideW := initSt.slideW, slideH := initSt.slideH,
          temps := [], saved := false }

/-- Extract the normal-return output (used to state closed witnesses). -/
def theOut (r : Except String RunOutput) : RunOutput :=
  match r with
  | .ok o => o
  | .error _ => default

/-! ## String accumulation lemmas -/

lemma foldl_append_shift (l : List String) :
    ∀ init, l.foldl (· ++ ·) init = init ++ l.foldl (· ++ ·) "" := by
  induction l with
  | nil => simp
  | cons x xs ih =>
    intro init
    show xs.foldl (· ++ ·) (init ++ x) = init ++ xs.foldl (· ++ ·) ("" ++ x)
    rw [ih (init ++ x), ih ("" ++ x)]
    simp [String.append_assoc]

lemma join_cons (s : String) (l : List String) :
    String.join (s :: l) = s ++ String.join l := by
  show l.foldl (· ++ ·) ("" ++ s) = s ++ l.foldl (· ++ ·) ""
  rw [foldl_append_shift l ("" ++ s)]
  simp

lemma foldl_append_join {α : Type} (g : String → α → String) (f : α → String)
    (hg : ∀ a x, g a x = a ++ f x) :
    ∀ (l : List α) (init : String), l.foldl g init = init ++ String.join (l.map f) := by
  intro l
  induction l with
  | nil => intro init; simp [String.join]
  | cons x xs ih =>
    intro init
    calc (x :: xs).foldl g init = xs.foldl g (g init x) := by simp [List.foldl]
    _ = g init x ++ String.join (xs.map f) := ih (g init x)
    _ = init ++ (f x ++ String.join (xs.map f)) := by
        rw [hg]; simp [String.append_assoc]
    _ = init ++ String.join ((x :: xs).map f) := by rw [List.map_cons, join_cons]

/-- The text of one line as the source builds it: every span's text followed
by a single space, joined. -/
def lineJoined (l : TLine) : String :=
  String.join (l.spans.map (fun s => s.text ++ " ")) ++ "\n"

lemma lineAccum_eq (acc : String) (l : TLine) : lineAccum acc l = acc ++ lineJoined l := by
  unfold lineAccum lineJoined
  rw [foldl_append_join (fun a s => a ++ s.text ++ " ") (fun s => s.text ++ " ")
        (fun a s => by simp [String.append_assoc]) l.spans acc]
  simp [String.append_assoc]

lemma textContent_eq_join (lines : List TLine) :
    textContent lines = String.join (lines.map lineJoined) := by
  unfold textContent
  rw [foldl_append_join lineAccum lineJoined lineAccum_eq lines ""]
  simp

/-- The block text as the amended claim states it: within each line every
span's text is followed by a single space, each line is terminated by a
newline, and the whole is stripped of leading and trailing whitespace. -/
def amendedBlockText (lines : List TLine) : String :=
  pyStrip (String.join (lines.map
    (fun l => String.join (l.spans.map (fun s => s.text ++ " ")) ++ "\n")))

/-- The block text as claim C1 states it: spans joined by a single space
within each line, lines joined by a newline, whole stripped. -/
def claimedBlockText (lines : List TLine) : String :=
  pyStrip (String.intercalate "\n"
    (lines.map (fun l => String.intercalate " " (l.spans.map Span.text))))

/-! ## Helper lemmas -/

lemma pyInt_eq_floor (q : ℚ) (h : 0 ≤ q) : pyInt q = ⌊q⌋ := if_pos h

lemma pyInt_nonneg (q : ℚ) (h : 0 ≤ q) : 0 ≤ pyInt q := by
  rw [pyInt_eq_floor q h]
  exact Int.floor_nonneg.mpr h

lemma runPages_editable_ok : ∀ (ps : List Page) (j : Nat) (st : St),
    ∃ st', runPages true ps j st = Except.ok st' := by
  intro ps
  induction ps with
  | nil => intro j st; exact ⟨st, rfl⟩
  | cons p rest ih =>
    intro j st
    simpa [runPages] using
      ih (j + 1) (processPageEditable j p
        { st with log := st.log ++ ["Processing page " ++ toString (j + 1)] })

lemma processPageEditable_slides (i : Nat) (p : Page) (st : St) :
    (processPageEditable i p st).slides = st.slides ++
      [(p.blocks.foldl (stepBlock i) ⟨[], st.temps, st.log⟩).elems] := rfl

lemma runPages_editable_count : ∀ (ps : List Page) (j : Nat) (st st' : St),
    runPages true ps j st = Except.ok st' →
    st'.slides.length = st.slides.length + ps.length := by
  intro ps
  induction ps with
  | nil =>
    intro j st st' h
    simp only [runPages, Except.ok.injEq] at h
    subst h
    simp
  | cons p rest ih =>
    intro j st st' h
    simp only [runPages, if_true] at h
    have hlen := ih (j + 1) _ st' h
    rw [hlen, processPageEditable_slides]
    simp
    omega

lemma runPages_editable_last : ∀ (ps : List Page) (j : Nat) (st st' : St) (p : Page),
    runPages true ps j st = Except.ok st' → ps.getLast? = some p →
    st'.slideW = pyInt (p.rectW * 12700) ∧ st'.slideH = pyInt (p.rectH * 12700) := by
  intro ps
  induction ps with
  | nil => intro j st st' p h hl; simp at hl
  | cons q rest ih =>
    intro j st st' p h hl
    simp only [runPages, if_true] at h
    cases rest with
    | nil =>
      have hq : q = p := by simpa using hl
      subst hq
      simp only [runPages, Except.ok.injEq] at h
      subst h
      exact ⟨rfl, rfl⟩
    | cons r rest' =>
      have hl' : (r :: rest').getLast? = some p := by
        rwa [List.getLast?_cons_cons] at hl
      exact ih (j + 1) _ st' p h hl'

/-- A block that leaves its temporary file behind: an image block that
fails after `open` has created the file — during `f.write` or during
`add_picture` — so that `os.remove` is never reached. -/
def leaky : Block → Bool
  | .image _ _ ImgOutcome.writeFail => true
  | .image _ _ ImgOutcome.insertFail => true
  | _ => false

lemma stepBlock_temps (i : Nat) (acc : PageAcc) (b : Block) (h : leaky b = false) :
    (stepBlock i acc b).temps = acc.temps := by
  cases b with
  | text _ _ => rfl
  | other _ _ => rfl
  | image bbox ext oc =>
    cases oc with
    | success => rfl
    | openFail => rfl
    | writeFail => simp [leaky] at h
    | insertFail => simp [leaky] at h

/-- The elements an individual block contributes to its slide. -/
def blockElems (i : Nat) (b : Block) : List Element :=
  match b with
  | .text bbox lines => [processTextBlock bbox lines]
  | .image bbox ext ImgOutcome.success =>
    [Element.picture (tempImgName i bbox.x0 bbox.y0 ext) (Pt bbox.x0) (Pt bbox.y0)
      (some (Pt (bbox.x1 - bbox.x0))) (some (Pt (bbox.y1 - bbox.y0)))]
  | .image _ _ _ => []
  | .other _ _ => []

lemma stepBlock_elems (i : Nat) (acc : PageAcc) (b : Block) :
    (stepBlock i acc b).elems = acc.elems ++ blockElems i b := by
  cases b with
  | text _ _ => rfl
  | other _ _ => simp [stepBlock, blockElems]
  | image bbox ext oc =>
    cases oc with
    | success => rfl
    | openFail => simp [stepBlock, blockElems]
    | writeFail => simp [stepBlock, blockElems]
    | insertFail => simp [stepBlock, blockElems]

lemma foldl_stepBlock_elems (i : Nat) (bs : List Block) :
    ∀ acc : PageAcc, (bs.foldl (stepBlock i) acc).elems = acc.elems ++ bs.flatMap (blockElems i) := by
  induction bs with
  | nil => intro acc; simp
  | cons b rest ih =>
    intro acc
    rw [List.foldl_cons, ih, stepBlock_elems]
    simp [List.flatMap_cons]

lemma runPages_editable_slides : ∀ (ps : List Page) (j : Nat) (st st' : St),
    runPages true ps j st = Except.ok st' →
    ∃ tail, st'.slides = st.slides ++ tail ∧ tail.length = ps.length ∧
      ∀ k (hk : k < ps.length),
        tail.get? k = some ((ps.get ⟨k, hk⟩).blocks.flatMap (blockElems (j + k))) := by
  intro ps
  induction ps with
  | nil =>
    intro j st st' h
    simp only [runPages, Except.ok.injEq] at h
    subst h
    exact ⟨[], by simp, rfl, fun k hk => absurd hk (by simp)⟩
  | cons q rest ih =>
    intro j st st' h
    simp only [runPages, if_true] at h
    obtain ⟨tail, hsl, hlen, hget⟩ := ih (j + 1) _ st' h
    refine ⟨q.blocks.flatMap (blockElems j) :: tail, ?_, by simp [hlen], ?_⟩
    · rw [hsl, processPageEditable_slides, foldl_stepBlock_elems]
      simp
    · intro k hk
      cases k with
      | zero => simp
      | succ k' =>
        have hg := hget k' (by simpa using hk)
        simpa [Nat.add_assoc, Nat.add_comm 1 k'] using hg

lemma foldl_stepBlock_temps (i : Nat) (bs : List Block) :
    ∀ acc, (∀ b ∈ bs, leaky b = false) →
      (bs.foldl (stepBlock i) acc).temps = acc.temps := by
  induction bs with
  | nil => intro acc _; rfl
  | cons b rest ih =>
    intro acc h
    rw [List.foldl_cons, ih _ (fun x hx => h x (List.mem_cons_of_mem _ hx)),
      stepBlock_temps i acc b (h b (List.mem_cons_self _ _))]

lemma runPages_editable_temps : ∀ (ps : List Page) (j : Nat) (st st' : St),
    runPages true ps j st = Except.ok st' →
    (∀ p ∈ ps, ∀ b ∈ p.blocks, leaky b = false) →
    st'.temps = st.temps := by
  intro ps
  induction ps with
  | nil =>
    intro j st st' h _
    simp only [runPages, Except.ok.injEq] at h
    subst h
    rfl
  | cons q rest ih =>
    intro j st st' h hnl
    simp only [runPages, if_true] at h
    have h1 := ih (j + 1) _ st' h (fun p hp => hnl p (List.mem_cons_of_mem _ hp))
    rw [h1]
    show (q.blocks.foldl (stepBlock j) _).temps = st.temps
    exact foldl_stepBlock_temps j q.blocks _ (hnl q (List.mem_cons_self _ _))

lemma runPages_raster_slides : ∀ (ps : List Page) (j : Nat) (st st' : St),
    runPages false ps j st = Except.ok st' →
    st'.slideW = st.slideW ∧ st'.slideH = st.slideH ∧ st'.temps = st.temps ∧
    ∃ tail, st'.slides = st.slides ++ tail ∧ tail.length = ps.length ∧
      ∀ k (hk : k < ps.length), ∃ wh, (ps.get ⟨k, hk⟩).render = Except.ok wh ∧
        tail.get? k = some [rasterPic (j + k) wh st.slideW st.slideH] := by
  intro ps
  induction ps with
  | nil =>
    intro j st st' h
    simp only [runPages, Except.ok.injEq] at h
    subst h
    exact ⟨rfl, rfl, rfl, [], by simp, rfl, fun k hk => absurd hk (by simp)⟩
  | cons q rest ih =>
    intro j st st' h
    simp only [runPages, Bool.false_eq_true, if_false] at h
    cases hq : q.render with
    | error e => rw [processPageRaster, hq] at h; cases h
    | ok wh =>
      rw [processPageRaster, hq] at h
      obtain ⟨hW, hH, hT, tail, hsl, hlen, hget⟩ := ih (j + 1) _ st' h
      refine ⟨hW, hH, hT, [rasterPic j wh st.slideW st.slideH] :: tail, ?_, by simp [hlen], ?_⟩
      · rw [hsl]
        simp
      · intro k hk
        cases k with
        | zero =>
          exact ⟨wh, hq, by simp⟩
        | succ k' =>
          obtain ⟨wh', hr', hg'⟩ := hget k' (by simpa using hk)
          exact ⟨wh', hr', by simpa [Nat.add_assoc, Nat.add_comm 1 k'] using hg'⟩

lemma runPages_raster_error : ∀ (ps₁ : List Page) (p : Page) (ps₂ : List Page)
    (j : Nat) (st : St) (e : String),
    p.render = Except.error e → (∀ q ∈ ps₁, ∃ wh, q.render = Except.ok wh) →
    runPages false (ps₁ ++ p :: ps₂) j st = Except.error e := by
  intro ps₁
  induction ps₁ with
  | nil =>
    intro p ps₂ j st e hp _
    simp only [List.nil_append, runPages, Bool.false_eq_true, if_false]
    rw [processPageRaster, hp]
  | cons q rest ih =>
    intro p ps₂ j st e hp hall
    obtain ⟨wh, hq⟩ := hall q (List.mem_cons_self _ _)
    simp only [List.cons_append, runPages, Bool.false_eq_true, if_false]
    rw [processPageRaster, hq]
    exact ih p ps₂ (j + 1) _ e hp (fun r hr => hall r (List.mem_cons_of_mem _ hr))

lemma rasterPic_isPicture (i : Nat) (wh : Nat × Nat) (sw sh : ℤ) :
    (rasterPic i wh sw sh).isPicture = true := by
  simp only [rasterPic]
  split <;> rfl

lemma pyStrip_eq_empty (s : String) (h : ∀ c ∈ s.data, c.isWhitespace) :
    pyStrip s = "" := by
  unfold pyStrip
  have h1 : s.data.dropWhile Char.isWhitespace = [] :=
    List.dropWhile_eq_nil_iff.mpr h
  rw [h1]
  rfl

lemma join_data_whitespace (ls : List String) (hls : ∀ s ∈ ls, s = "\n") :
    ∀ c ∈ (String.join ls).data, c.isWhitespace := by
  induction ls with
  | nil => intro c hc; simp [String.join] at hc
  | cons s rest ih =>
    intro c hc
    rw [join_cons] at hc
    simp only [String.data_append] at hc
    rcases List.mem_append.mp hc with h1 | h2
    · rw [hls s (List.mem_cons_self s rest)] at h1
      simp at h1
      rw [h1]
      decide
    · exact ih (fun t ht => hls t (List.mem_cons_of_mem s ht)) c h2

lemma textContent_all_empty (lines : List TLine) (h : ∀ l ∈ lines, l.spans = []) :
    pyStrip (textContent lines) = "" := by
  rw [textContent_eq_join]
  apply pyStrip_eq_empty
  apply join_data_whitespace
  intro s hs
  rcases List.mem_map.mp hs with ⟨l, hl, rfl⟩
  unfold lineJoined
  rw [h l hl]
  rfl

/-! ## Claim theorems -/

/-- C2: in raster mode, when the image aspect ratio exceeds the slide
aspect ratio the picture is scaled to the slide width (left 0, height the
rounded-down aspect-preserving value, top the rounded-down half gap, never
negative); otherwise it is scaled to the slide height and centered
horizontally the same way.  The last two inequalities of each branch state
aspect preservation within integer rounding: the scaled dimension is the
floor of the exact aspect-preserving value. -/
theorem C2_raster_fit (imgW imgH : ℕ) (sw sh : ℤ)
    (hiw : 0 < imgW) (hih : 0 < imgH) (hsw : 0 < sw) (hsh : 0 < sh) :
    (((sw : ℚ) / (sh : ℚ) < (imgW : ℚ) / (imgH : ℚ)) →
      (rasterPlacement imgW imgH sw sh).fitWidth = true
      ∧ (rasterPlacement imgW imgH sw sh).newW = sw
      ∧ (rasterPlacement imgW imgH sw sh).newH = ⌊(sw : ℚ) * (imgH : ℚ) / (imgW : ℚ)⌋
      ∧ (rasterPlacement imgW imgH sw sh).left = 0
      ∧ (rasterPlacement imgW imgH sw sh).top
          = ⌊((sh : ℚ) - ((rasterPlacement imgW imgH sw sh).newH : ℚ)) / 2⌋
      ∧ 0 ≤ (rasterPlacement imgW imgH sw sh).top
      ∧ ((rasterPlacement imgW imgH sw sh).newH : ℚ) * (imgW : ℚ) ≤ (sw : ℚ) * (imgH : ℚ)
      ∧ (sw : ℚ) * (imgH : ℚ) < (((rasterPlacement imgW imgH sw sh).newH : ℚ) + 1) * (imgW : ℚ))
    ∧ (¬ ((sw : ℚ) / (sh : ℚ) < (imgW : ℚ) / (imgH : ℚ)) →
      (rasterPlacement imgW imgH sw sh).fitWidth = false
      ∧ (rasterPlacement imgW imgH sw sh).newH = sh
      ∧ (rasterPlacement imgW imgH sw sh).newW = ⌊(sh : ℚ) * (imgW : ℚ) / (imgH : ℚ)⌋
      ∧ (rasterPlacement imgW imgH sw sh).top = 0
      ∧ (rasterPlacement imgW imgH sw sh).left
          = ⌊((sw : ℚ) - ((rasterPlacement imgW imgH sw sh).newW : ℚ)) / 2⌋
      ∧ 0 ≤ (rasterPlacement imgW imgH sw sh).left
      ∧ ((rasterPlacement imgW imgH sw sh).newW : ℚ) * (imgH : ℚ) ≤ (sh : ℚ) * (imgW : ℚ)
      ∧ (sh : ℚ) * (imgW : ℚ) < (((rasterPlacement imgW imgH sw sh).newW : ℚ) + 1) * (imgH : ℚ)) := by
  have hW : (0 : ℚ) < (imgW : ℚ) := by exact_mod_cast hiw
  have hH : (0 : ℚ) < (imgH : ℚ) := by exact_mod_cast hih
  have hSW : (0 : ℚ) < (sw : ℚ) := by exact_mod_cast hsw
  have hSH : (0 : ℚ) < (sh : ℚ) := by exact_mod_cast hsh
  constructor
  · intro h
    have hpl : rasterPlacement imgW imgH sw sh
        = { left := 0,
            top := pyInt ((((sh - pyInt ((sw : ℚ) / ((imgW : ℚ) / (imgH : ℚ)))) : ℤ) : ℚ) / 2),
            newW := sw, newH := pyInt ((sw : ℚ) / ((imgW : ℚ) / (imgH : ℚ))),
            fitWidth := true } := by
      unfold rasterPlacement
      rw [if_pos h]
    have hveq : (sw : ℚ) / ((imgW : ℚ) / (imgH : ℚ)) = (sw : ℚ) * (imgH : ℚ) / (imgW : ℚ) := by
      field_simp
    have hv0 : (0 : ℚ) ≤ (sw : ℚ) * (imgH : ℚ) / (imgW : ℚ) :=
      le_of_lt (div_pos (mul_pos hSW hH) hW)
    have hnewH : pyInt ((sw : ℚ) / ((imgW : ℚ) / (imgH : ℚ)))
        = ⌊(sw : ℚ) * (imgH : ℚ) / (imgW : ℚ)⌋ := by
      rw [hveq, pyInt_eq_floor _ hv0]
    have hvlt : (sw : ℚ) * (imgH : ℚ) / (imgW : ℚ) < (sh : ℚ) := by
      rw [div_lt_iff₀ hW]
      have h2 := (div_lt_div_iff₀ hSH hH).mp h
      linarith
    have hnHlt : pyInt ((sw : ℚ) / ((imgW : ℚ) / (imgH : ℚ))) < sh := by
      rw [hnewH]
      have h1 : (⌊(sw : ℚ) * (imgH : ℚ) / (imgW : ℚ)⌋ : ℚ) < (sh : ℚ) :=
        lt_of_le_of_lt (Int.floor_le _) hvlt
      exact_mod_cast h1
    have htop0 : (0 : ℚ)
        ≤ (((sh - pyInt ((sw : ℚ) / ((imgW : ℚ) / (imgH : ℚ)))) : ℤ) : ℚ) / 2 := by
      apply div_nonneg _ (by norm_num)
      have h3 : (0 : ℤ) ≤ sh - pyInt ((sw : ℚ) / ((imgW : ℚ) / (imgH : ℚ))) :=
        sub_nonneg.mpr (le_of_lt hnHlt)
      exact_mod_cast h3
    rw [hpl]
    refine ⟨rfl, rfl, hnewH, rfl, ?_, ?_, ?_, ?_⟩
    · show pyInt _ = _
      rw [pyInt_eq_floor _ htop0]
      congr 1
      push_cast
      ring
    · exact pyInt_nonneg _ htop0
    · show (↑(pyInt ((sw : ℚ) / ((imgW : ℚ) / (imgH : ℚ)))) : ℚ) * (imgW : ℚ) ≤ _
      rw [hnewH]
      have h4 : (⌊(sw : ℚ) * (imgH : ℚ) / (imgW : ℚ)⌋ : ℚ)
          ≤ (sw : ℚ) * (imgH : ℚ) / (imgW : ℚ) := Int.floor_le _
      calc (⌊(sw : ℚ) * (imgH : ℚ) / (imgW : ℚ)⌋ : ℚ) * (imgW : ℚ)
          ≤ ((sw : ℚ) * (imgH : ℚ) / (imgW : ℚ)) * (imgW : ℚ) :=
            mul_le_mul_of_nonneg_right h4 (le_of_lt hW)
      _ = (sw : ℚ) * (imgH : ℚ) := div_mul_cancel₀ _ (ne_of_gt hW)
    · show _ < ((↑(pyInt ((sw : ℚ) / ((imgW : ℚ) / (imgH : ℚ)))) : ℚ) + 1) * (imgW : ℚ)
      rw [hnewH]
      have h5 : (sw : ℚ) * (imgH : ℚ) / (imgW : ℚ)
          < (⌊(sw : ℚ) * (imgH : ℚ) / (imgW : ℚ)⌋ : ℚ) + 1 := Int.lt_floor_add_one _
      have h6 := (div_lt_iff₀ hW).mp h5
      linarith
  · intro h
    have hpl : rasterPlacement imgW imgH sw sh
        = { left := pyInt ((((sw - pyInt ((sh : ℚ) * ((imgW : ℚ) / (imgH : ℚ)))) : ℤ) : ℚ) / 2),
            top := 0,
            newW := pyInt ((sh : ℚ) * ((imgW : ℚ) / (imgH : ℚ))), newH := sh,
            fitWidth := false } := by
      unfold rasterPlacement
      rw [if_neg h]
    have hveq : (sh : ℚ) * ((imgW : ℚ) / (imgH : ℚ)) = (sh : ℚ) * (imgW : ℚ) / (imgH : ℚ) :=
      (mul_div_assoc _ _ _).symm
    have hv0 : (0 : ℚ) ≤ (sh : ℚ) * (imgW : ℚ) / (imgH : ℚ) :=
      le_of_lt (div_pos (mul_pos hSH hW) hH)
    have hnewW : pyInt ((sh : ℚ) * ((imgW : ℚ) / (imgH : ℚ)))
        = ⌊(sh : ℚ) * (imgW : ℚ) / (imgH : ℚ)⌋ := by
      rw [hveq, pyInt_eq_floor _ hv0]
    have hvle : (sh : ℚ) * (imgW : ℚ) / (imgH : ℚ) ≤ (sw : ℚ) := by
      rw [div_le_iff₀ hH]
      have h2 := (div_le_div_iff₀ hH hSH).mp (not_lt.mp h)
      linarith
    have hnWle : pyInt ((sh : ℚ) * ((imgW : ℚ) / (imgH : ℚ))) ≤ sw := by
      rw [hnewW]
      have h1 : (⌊(sh : ℚ) * (imgW : ℚ) / (imgH : ℚ)⌋ : ℚ) ≤ (sw : ℚ) :=
        le_trans (Int.floor_le _) hvle
      exact_mod_cast h1
    have hleft0 : (0 : ℚ)
        ≤ (((sw - pyInt ((sh : ℚ) * ((imgW : ℚ) / (imgH : ℚ)))) : ℤ) : ℚ) / 2 := by
      apply div_nonneg _ (by norm_num)
      have h3 : (0 : ℤ) ≤ sw - pyInt ((sh : ℚ) * ((imgW : ℚ) / (imgH : ℚ))) :=
        sub_nonneg.mpr hnWle
      exact_mod_cast h3
    rw [hpl]
    refine ⟨rfl, rfl, hnewW, rfl, ?_, ?_, ?_, ?_⟩
    · show pyInt _ = _
      rw [pyInt_eq_floor _ hleft0]
      congr 1
      push_cast
      ring
    · exact pyInt_nonneg _ hleft0
    · show (↑(pyInt ((sh : ℚ) * ((imgW : ℚ) / (imgH : ℚ)))) : ℚ) * (imgH : ℚ) ≤ _
      rw [hnewW]
      have h4 : (⌊(sh : ℚ) * (imgW : ℚ) / (imgH : ℚ)⌋ : ℚ)
          ≤ (sh : ℚ) * (imgW : ℚ) / (imgH : ℚ) := Int.floor_le _
      calc (⌊(sh : ℚ) * (imgW : ℚ) / (imgH : ℚ)⌋ : ℚ) * (imgH : ℚ)
          ≤ ((sh : ℚ) * (imgW : ℚ) / (imgH : ℚ)) * (imgH : ℚ) :=
            mul_le_mul_of_nonneg_right h4 (le_of_lt hH)
      _ = (sh : ℚ) * (imgW : ℚ) := div_mul_cancel₀ _ (ne_of_gt hH)
    · show _ < ((↑(pyInt ((sh : ℚ) * ((imgW : ℚ) / (imgH : ℚ)))) : ℚ) + 1) * (imgH : ℚ)
      rw [hnewW]
      have h5 : (sh : ℚ) * (imgW : ℚ) / (imgH : ℚ)
          < (⌊(sh : ℚ) * (imgW : ℚ) / (imgH : ℚ)⌋ : ℚ) + 1 := Int.lt_floor_add_one _
      have h6 := (div_lt_iff₀ hH).mp h5
      linarith

/-- C1 (counterexample): for a block of two lines, the first holding spans
"a" and "b" and the second the span "c", the text placed in the text box is
"a b \nc" — the code appends a space after every span, so each non-final
line keeps a trailing space before its newline, which the final strip does
not remove.  This differs from "spans joined by a single space, lines
joined by newline, whole stripped", which gives "a b\nc". -/
theorem C1_counterexample :
    (processTextBlock ⟨0, 0, 100, 50⟩ [⟨[⟨"a", 12⟩, ⟨"b", 12⟩]⟩, ⟨[⟨"c", 12⟩]⟩]).textOf
      ≠ some (claimedBlockText [⟨[⟨"a", 12⟩, ⟨"b", 12⟩]⟩, ⟨[⟨"c", 12⟩]⟩]) := by
  decide

/-- C1 (amended): in reconstruction mode, the text placed into the text box
equals the concatenation in which every span's text is followed by a single
space, every line is terminated by a newline, and the whole result is
stripped of leading and trailing whitespace.  (Equivalently: spans joined
by single spaces, with an extra trailing space at the end of each line.) -/
theorem C1_block_text (bbox : BBox) (lines : List TLine) :
    (processTextBlock bbox lines).textOf = some (amendedBlockText lines) := by
  show some (pyStrip (textContent lines)) = some (amendedBlockText lines)
  rw [textContent_eq_join]
  rfl

/-- C5: in reconstruction mode every inserted element sits at its source
block's bounding box with only the point→EMU conversion applied: a text
block's text box is created at (x0·12700, y0·12700) with width
(x1−x0)·12700 and height (y1−y0)·12700, and a successfully processed image
block yields a picture whose position and size are the block's bounding box
converted the same way. -/
theorem C5_block_placement (i : Nat) (acc : PageAcc) (bbox : BBox)
    (lines : List TLine) (ext : String) :
    (stepBlock i acc (Block.text bbox lines)).elems
      = acc.elems ++ [Element.textBox (pyInt (bbox.x0 * 12700)) (pyInt (bbox.y0 * 12700))
          (pyInt ((bbox.x1 - bbox.x0) * 12700)) (pyInt ((bbox.y1 - bbox.y0) * 12700))
          (pyStrip (textContent lines)) ((trySpanSize lines).map Pt)]
    ∧ (stepBlock i acc (Block.image bbox ext ImgOutcome.success)).elems
      = acc.elems ++ [Element.picture (tempImgName i bbox.x0 bbox.y0 ext)
          (pyInt (bbox.x0 * 12700)) (pyInt (bbox.y0 * 12700))
          (some (pyInt ((bbox.x1 - bbox.x0) * 12700)))
          (some (pyInt ((bbox.y1 - bbox.y0) * 12700)))] :=
  ⟨rfl, rfl⟩

/-- C8: in reconstruction mode, when writing the image bytes to the
temporary file (at `open` or at `f.write`) or inserting the picture raises,
a warning is printed, the failing block contributes no element, and
processing continues — the editable page loop can never propagate an
exception. -/
theorem C8_image_failure (i : Nat) (acc : PageAcc) (bbox : BBox) (ext : String)
    (oc : ImgOutcome)
    (hfail : oc = ImgOutcome.openFail ∨ oc = ImgOutcome.writeFail
      ∨ oc = ImgOutcome.insertFail) :
    (stepBlock i acc (Block.image bbox ext oc)).elems = acc.elems
    ∧ (stepBlock i acc (Block.image bbox ext oc)).log
        = acc.log ++ ["Warning: Failed to add image element"]
    ∧ ∀ (ps : List Page) (j : Nat) (st : St),
        ∃ st', runPages true ps j st = Except.ok st' := by
  rcases hfail with rfl | rfl | rfl
  · exact ⟨rfl, rfl, runPages_editable_ok⟩
  · exact ⟨rfl, rfl, runPages_editable_ok⟩
  · exact ⟨rfl, rfl, runPages_editable_ok⟩

/-- C8 (witness): a failing write on a concrete image block adds no element
and logs exactly the warning. -/
theorem C8_witness :
    (stepBlock 0 ⟨[], [], []⟩ (Block.image ⟨1, 2, 3, 4⟩ "png" ImgOutcome.writeFail)).elems
        = ([] : List Element)
    ∧ (stepBlock 0 ⟨[], [], []⟩ (Block.image ⟨1, 2, 3, 4⟩ "png" ImgOutcome.writeFail)).log
        = [] ++ ["Warning: Failed to add image element"] :=
  ⟨(C8_image_failure 0 ⟨[], [], []⟩ ⟨1, 2, 3, 4⟩ "png" ImgOutcome.writeFail
      (Or.inr (Or.inl rfl))).1,
   (C8_image_failure 0 ⟨[], [], []⟩ ⟨1, 2, 3, 4⟩ "png" ImgOutcome.writeFail
      (Or.inr (Or.inl rfl))).2.1⟩

/-- C9: only the first span's font size is applied, and only to the first
paragraph of the created text box; when looking up the first span fails the
exception is swallowed and the text box is still inserted with its text but
no extra formatting. -/
theorem C9_formatting (bbox : BBox) (lines : List TLine) :
    (∀ l rest s srest, lines = l :: rest → l.spans = s :: srest →
        (processTextBlock bbox lines).paraSize = some (Pt s.size))
    ∧ ((lines = [] ∨ ∃ l rest, lines = l :: rest ∧ l.spans = []) →
        (processTextBlock bbox lines).paraSize = none
        ∧ (processTextBlock bbox lines).textOf = some (pyStrip (textContent lines))) := by
  constructor
  · intro l rest s srest hl hs
    subst hl
    simp [processTextBlock, Element.paraSize, trySpanSize, hs]
  · rintro (rfl | ⟨l, rest, rfl, hs⟩)
    · simp [processTextBlock, Element.paraSize, Element.textOf, trySpanSize]
    · simp [processTextBlock, Element.paraSize, Element.textOf, trySpanSize, hs]

/-- C9 (witness): on a concrete one-line block the first span's size 14 pt
is applied, and on an empty block the formatting attempt fails swallowed,
the text box still carrying its (empty) text. -/
theorem C9_witness :
    (processTextBlock ⟨0, 0, 1, 1⟩ [⟨[⟨"x", 14⟩]⟩]).paraSize = some (Pt 14)
    ∧ ((processTextBlock ⟨0, 0, 1, 1⟩ ([] : List TLine)).paraSize = none
      ∧ (processTextBlock ⟨0, 0, 1, 1⟩ ([] : List TLine)).textOf
          = some (pyStrip (textContent []))) :=
  ⟨(C9_formatting ⟨0, 0, 1, 1⟩ [⟨[⟨"x", 14⟩]⟩]).1 ⟨[⟨"x", 14⟩]⟩ [] ⟨"x", 14⟩ [] rfl rfl,
   (C9_formatting ⟨0, 0, 1, 1⟩ ([] : List TLine)).2 (Or.inl rfl)⟩

/-- C10 (counterexample): a block whose first line has no spans but whose
second line holds the span "a" still yields one text box, but its text is
"a", not the empty string the claim asserts. -/
theorem C10_counterexample :
    ([⟨[]⟩, ⟨[⟨"a", 12⟩]⟩] : List TLine).head?.map TLine.spans = some []
    ∧ (processTextBlock ⟨0, 0, 5, 5⟩ [⟨[]⟩, ⟨[⟨"a", 12⟩]⟩]).textOf ≠ some "" := by
  decide

/-- C10 (amended): a text block containing no lines, or whose first line
contains no spans, still yields exactly one text box element and never
raises — the first-span lookup fails inside the swallowing handler, so no
font size is applied; the box text is empty after stripping when the block
has no lines, or when no line of the block has any span. -/
theorem C10_degenerate_block (i : Nat) (acc : PageAcc) (bbox : BBox) (lines : List TLine)
    (h : lines = [] ∨ ∃ l rest, lines = l :: rest ∧ l.spans = []) :
    (stepBlock i acc (Block.text bbox lines)).elems = acc.elems ++ [processTextBlock bbox lines]
    ∧ (processTextBlock bbox lines).paraSize = none
    ∧ ((lines = [] ∨ ∀ l ∈ lines, l.spans = []) →
        (processTextBlock bbox lines).textOf = some "") := by
  refine ⟨rfl, ?_, ?_⟩
  · rcases h with rfl | ⟨l, rest, rfl, hs⟩
    · simp [processTextBlock, Element.paraSize, trySpanSize]
    · simp [processTextBlock, Element.paraSize, trySpanSize, hs]
  · rintro (rfl | hall)
    · simp [processTextBlock, Element.textOf, textContent, pyStrip]
    · simp [processTextBlock, Element.textOf, textContent_all_empty lines hall]

/-- C10 (witness): the concrete no-lines block yields a single empty text
box with no font size applied. -/
theorem C10_witness :
    (stepBlock 0 ⟨[], [], []⟩ (Block.text ⟨0, 0, 5, 5⟩ [])).elems
        = [] ++ [processTextBlock ⟨0, 0, 5, 5⟩ []]
    ∧ (processTextBlock ⟨0, 0, 5, 5⟩ ([] : List TLine)).paraSize = none :=
  ⟨(C10_degenerate_block 0 ⟨[], [], []⟩ ⟨0, 0, 5, 5⟩ [] (Or.inl rfl)).1,
   (C10_degenerate_block 0 ⟨[], [], []⟩ ⟨0, 0, 5, 5⟩ [] (Or.inl rfl)).2.1⟩

/-- C2 (witness): concrete instantiation of the raster fit at a 2x1 image
on a 3x3 slide (fit-width branch). -/
theorem C2_witness :
    (rasterPlacement 2 1 3 3).fitWidth = true
    ∧ (rasterPlacement 2 1 3 3).newW = 3
    ∧ (rasterPlacement 2 1 3 3).newH = ⌊((3 : ℤ) : ℚ) * ((1 : ℕ) : ℚ) / ((2 : ℕ) : ℚ)⌋
    ∧ (rasterPlacement 2 1 3 3).left = 0
    ∧ (rasterPlacement 2 1 3 3).top
        = ⌊(((3 : ℤ) : ℚ) - ((rasterPlacement 2 1 3 3).newH : ℚ)) / 2⌋
    ∧ 0 ≤ (rasterPlacement 2 1 3 3).top
    ∧ ((rasterPlacement 2 1 3 3).newH : ℚ) * ((2 : ℕ) : ℚ) ≤ ((3 : ℤ) : ℚ) * ((1 : ℕ) : ℚ)
    ∧ ((3 : ℤ) : ℚ) * ((1 : ℕ) : ℚ)
        < (((rasterPlacement 2 1 3 3).newH : ℚ) + 1) * ((2 : ℕ) : ℚ) :=
  (C2_raster_fit 2 1 3 3 (by norm_num) (by norm_num) (by norm_num) (by norm_num)).1
    (by norm_num)

/-- C3: in reconstruction mode each page resizes the whole presentation to
that page's rectangle times 12700 (point to EMU, truncated to an integer),
so after the run the slide dimensions are the last page's rectangle times
12700; for documents whose pages all share one size this is that shared
size times 12700. -/
theorem C3_slide_dims (ps : List Page) (saveOk : Bool) (out : RunOutput) (p : Page)
    (hconv : convert_pdf_to_pptx true (Except.ok ps) saveOk true = Except.ok out)
    (hlast : ps.getLast? = some p) :
    (out.slideW = pyInt (p.rectW * 12700) ∧ out.slideH = pyInt (p.rectH * 12700))
    ∧ ∀ w h, (∀ q ∈ ps, q.rectW = w ∧ q.rectH = h) →
        (out.slideW = pyInt (w * 12700) ∧ out.slideH = pyInt (h * 12700)) := by
  obtain ⟨st', hrun⟩ := runPages_editable_ok ps 0 initSt
  have hdims := runPages_editable_last ps 0 initSt st' p hrun hlast
  have hout : out.slideW = st'.slideW ∧ out.slideH = st'.slideH := by
    simp only [convert_pdf_to_pptx, if_true, hrun] at hconv
    cases saveOk with
    | true =>
      simp only [if_true, Except.ok.injEq] at hconv
      rw [← hconv]
      exact ⟨rfl, rfl⟩
    | false =>
      simp only [Bool.false_eq_true, if_false, Except.ok.injEq] at hconv
      rw [← hconv]
      exact ⟨rfl, rfl⟩
  have hmem : p ∈ ps := by
    have hx : p ∈ ps.getLast? := by rw [hlast]; rfl
    obtain ⟨hne, hpe⟩ := List.mem_getLast?_eq_getLast hx
    rw [hpe]
    exact List.getLast_mem hne
  constructor
  · exact ⟨hout.1.trans hdims.1, hout.2.trans hdims.2⟩
  · intro w h hall
    obtain ⟨hw, hh⟩ := hall p hmem
    rw [← hw, ← hh]
    exact ⟨hout.1.trans hdims.1, hout.2.trans hdims.2⟩

/-- C3 (witness): a one-page 612x792 pt document yields slide dimensions
612*12700 by 792*12700 EMU. -/
theorem C3_witness :
    (theOut (convert_pdf_to_pptx true
        (Except.ok [⟨612, 792, [], Except.ok (1224, 1584)⟩]) true true)).slideW
      = pyInt (612 * 12700)
    ∧ (theOut (convert_pdf_to_pptx true
        (Except.ok [⟨612, 792, [], Except.ok (1224, 1584)⟩]) true true)).slideH
      = pyInt (792 * 12700) :=
  (C3_slide_dims [⟨612, 792, [], Except.ok (1224, 1584)⟩] true
    (theOut (convert_pdf_to_pptx true
      (Except.ok [⟨612, 792, [], Except.ok (1224, 1584)⟩]) true true))
    ⟨612, 792, [], Except.ok (1224, 1584)⟩ rfl rfl).1

/-- C4: every document that converts successfully produces exactly one
slide per source page, in source order: in reconstruction mode the k-th
slide is exactly the list of elements generated from the k-th source page's
blocks, and in raster mode the k-th slide is exactly the singleton list
holding the picture rendered from the k-th source page. -/
theorem C4_slides (ps : List Page) (saveOk editable : Bool) (out : RunOutput)
    (hconv : convert_pdf_to_pptx true (Except.ok ps) saveOk editable = Except.ok out) :
    out.slides.length = ps.length
    ∧ (editable = true → ∀ k (hk : k < ps.length),
        out.slides.get? k = some ((ps.get ⟨k, hk⟩).blocks.flatMap (blockElems k)))
    ∧ (editable = false → ∀ k (hk : k < ps.length), ∃ wh,
        (ps.get ⟨k, hk⟩).render = Except.ok wh
        ∧ out.slides.get? k = some [rasterPic k wh initSt.slideW initSt.slideH]
        ∧ (rasterPic k wh initSt.slideW initSt.slideH).isPicture = true) := by
  cases hrun : runPages editable ps 0 initSt with
  | error e => simp [convert_pdf_to_pptx, hrun] at hconv
  | ok st' =>
    have hout : out.slides = st'.slides := by
      simp only [convert_pdf_to_pptx, if_true, hrun] at hconv
      cases saveOk with
      | true =>
        simp only [if_true, Except.ok.injEq] at hconv
        rw [← hconv]
      | false =>
        simp only [Bool.false_eq_true, if_false, Except.ok.injEq] at hconv
        rw [← hconv]
    cases editable with
    | true =>
      obtain ⟨tail, hsl, hlen, hget⟩ := runPages_editable_slides ps 0 initSt st' hrun
      have hsl' : st'.slides = tail := by simpa [initSt] using hsl
      refine ⟨by rw [hout, hsl', hlen], ?_, by intro h; cases h⟩
      intro _ k hk
      have hg := hget k hk
      rw [hout, hsl']
      simpa using hg
    | false =>
      obtain ⟨_, _, _, tail, hsl, hlen, hget⟩ := runPages_raster_slides ps 0 initSt st' hrun
      have hsl' : st'.slides = tail := by simpa [initSt] using hsl
      refine ⟨by rw [hout, hsl', hlen], ?_, ?_⟩
      · intro h
        cases h
      intro _ k hk
      obtain ⟨wh, hr, hg⟩ := hget k hk
      refine ⟨wh, hr, ?_, rasterPic_isPicture k wh initSt.slideW initSt.slideH⟩
      rw [hout, hsl']
      simpa [initSt] using hg

/-- C4 (witness): a concrete two-page raster conversion yields two
slides. -/
theorem C4_witness :
    (theOut (convert_pdf_to_pptx true
        (Except.ok [⟨612, 792, [], Except.ok (1224, 1584)⟩,
          ⟨612, 792, [], Except.ok (1224, 1584)⟩]) true false)).slides.length
      = [(⟨612, 792, [], Except.ok (1224, 1584)⟩ : Page),
          ⟨612, 792, [], Except.ok (1224, 1584)⟩].length :=
  (C4_slides [⟨612, 792, [], Except.ok (1224, 1584)⟩, ⟨612, 792, [], Except.ok (1224, 1584)⟩]
    true false
    (theOut (convert_pdf_to_pptx true
      (Except.ok [⟨612, 792, [], Except.ok (1224, 1584)⟩,
        ⟨612, 792, [], Except.ok (1224, 1584)⟩]) true false)) rfl).1

/-- C6 (counterexample): a raster-mode page whose rendering raises makes
the whole conversion propagate the exception to the caller — it does not
print a message and return normally, contradicting the claim that on any
stage failure the function prints and returns without raising. -/
theorem C6_counterexample :
    convert_pdf_to_pptx true (Except.ok [⟨612, 792, [], Except.error "cannot render page"⟩])
      true false = Except.error "cannot render page" := rfl

/-- C6 (amended): failures at the missing-file, open and save stages print
a descriptive message and return normally without raising; but a raster
page render failure propagates the exception to the caller, aborting the
whole conversion with no partial-page fallback and no saved output. -/
theorem C6_error_handling :
    (∀ (openRes : Except String (List Page)) (saveOk editable : Bool),
      ∃ out, convert_pdf_to_pptx false openRes saveOk editable = Except.ok out
        ∧ out.saved = false ∧ "Error: PDF file not found" ∈ out.log)
    ∧ (∀ (e : String) (saveOk editable : Bool),
      ∃ out, convert_pdf_to_pptx true (Except.error e) saveOk editable = Except.ok out
        ∧ out.saved = false ∧ ("Error opening PDF: " ++ e) ∈ out.log)
    ∧ (∀ (ps : List Page) (editable : Bool) (out : RunOutput),
      convert_pdf_to_pptx true (Except.ok ps) false editable = Except.ok out →
      out.saved = false ∧ "Error saving PPTX file" ∈ out.log)
    ∧ (∀ (ps₁ : List Page) (p : Page) (ps₂ : List Page) (e : String) (saveOk : Bool),
      p.render = Except.error e → (∀ q ∈ ps₁, ∃ wh, q.render = Except.ok wh) →
      convert_pdf_to_pptx true (Except.ok (ps₁ ++ p :: ps₂)) saveOk false = Except.error e) := by
  refine ⟨?_, ?_, ?_, ?_⟩
  · intro openRes saveOk editable
    exact ⟨_, rfl, rfl, by simp⟩
  · intro e saveOk editable
    exact ⟨_, rfl, rfl, by simp⟩
  · intro ps editable out hconv
    cases hrun : runPages editable ps 0 initSt with
    | error e => simp [convert_pdf_to_pptx, hrun] at hconv
    | ok st' =>
      simp only [convert_pdf_to_pptx, if_true, hrun, Bool.false_eq_true, if_false,
        Except.ok.injEq] at hconv
      rw [← hconv]
      exact ⟨rfl, by simp⟩
  · intro ps₁ p ps₂ e saveOk hp hall
    have hrun := runPages_raster_error ps₁ p ps₂ 0 initSt e hp hall
    simp [convert_pdf_to_pptx, hrun]

/-- C6 (witness): concrete instantiation of the render-failure conjunct:
one good page followed by an unrenderable page propagates the render
exception. -/
theorem C6_witness :
    convert_pdf_to_pptx true
        (Except.ok ([⟨612, 792, [], Except.ok (1224, 1584)⟩]
          ++ (⟨612, 792, [], Except.error "cannot render page"⟩ : Page) :: []))
        true false
      = Except.error "cannot render page" :=
  C6_error_handling.2.2.2 [⟨612, 792, [], Except.ok (1224, 1584)⟩]
    ⟨612, 792, [], Except.error "cannot render page"⟩ [] "cannot render page" true rfl
    (by intro q hq
        rw [List.mem_singleton] at hq
        exact ⟨(1224, 1584), by rw [hq]⟩)

/-- C7 (counterexample): when an image block's insertion fails after the
temp file was written, the except branch skips the removal, so the
temporary artifact persists after the run — contradicting the claim that no
temporary artifact file persists including when insertion fails. -/
theorem C7_counterexample :
    (theOut (convert_pdf_to_pptx true
        (Except.ok [⟨612, 792, [Block.image ⟨10, 20, 30, 40⟩ "png" ImgOutcome.insertFail],
          Except.ok (1224, 1584)⟩]) true true)).temps = ["temp_img_0_10_20.png"]
    ∧ (theOut (convert_pdf_to_pptx true
        (Except.ok [⟨612, 792, [Block.image ⟨10, 20, 30, 40⟩ "png" ImgOutcome.insertFail],
          Except.ok (1224, 1584)⟩]) true true)).temps ≠ [] := by
  constructor
  · rfl
  · decide

/-- C7 (amended): every temporary image artifact is created, used and
removed within the processing of its single block or page, so that no
temporary artifact persists after the run — provided no image block fails
after its temp file has been created, i.e. every image block either
succeeds or fails already at `open`; a failure during `f.write` or during
`add_picture` happens after `open` created the file and leaves the
artifact behind (see the counterexample). -/
theorem C7_temp_cleanup (ps : List Page) (saveOk editable : Bool) (out : RunOutput)
    (hleak : ∀ p ∈ ps, ∀ b ∈ p.blocks, leaky b = false)
    (hconv : convert_pdf_to_pptx true (Except.ok ps) saveOk editable = Except.ok out) :
    out.temps = [] := by
  cases hrun : runPages editable ps 0 initSt with
  | error e => simp [convert_pdf_to_pptx, hrun] at hconv
  | ok st' =>
    have hout : out.temps = st'.temps := by
      simp only [convert_pdf_to_pptx, if_true, hrun] at hconv
      cases saveOk with
      | true =>
        simp only [if_true, Except.ok.injEq] at hconv
        rw [← hconv]
      | false =>
        simp only [Bool.false_eq_true, if_false, Except.ok.injEq] at hconv
        rw [← hconv]
    cases editable with
    | true =>
      rw [hout, runPages_editable_temps ps 0 initSt st' hrun hleak]
      rfl
    | false =>
      obtain ⟨_, _, hT, _⟩ := runPages_raster_slides ps 0 initSt st' hrun
      rw [hout, hT]
      rfl

/-- C7 (witness): a run with a text block and a successfully inserted
image block leaves no temporary file behind. -/
theorem C7_witness :
    (theOut (convert_pdf_to_pptx true
        (Except.ok [⟨612, 792,
          [Block.text ⟨10, 20, 110, 40⟩ [⟨[⟨"hi", 11⟩]⟩],
           Block.image ⟨5, 6, 50, 60⟩ "png" ImgOutcome.success],
          Except.ok (1224, 1584)⟩]) true true)).temps = [] :=
  C7_temp_cleanup
    [⟨612, 792,
      [Block.text ⟨10, 20, 110, 40⟩ [⟨[⟨"hi", 11⟩]⟩],
       Block.image ⟨5, 6, 50, 60⟩ "png" ImgOutcome.success],
      Except.ok (1224, 1584)⟩] true true
    (theOut (convert_pdf_to_pptx true
      (Except.ok [⟨612, 792,
        [Block.text ⟨10, 20, 110, 40⟩ [⟨[⟨"hi", 11⟩]⟩],
         Block.image ⟨5, 6, 50, 60⟩ "png" ImgOutcome.success],
        Except.ok (1224, 1584)⟩]) true true))
    (by decide) rfl

end Convert
